import Mathlib

/-!
A verification development for the doom-fire terminal renderer
(`doom-fire.go`).  The Go program keeps a flat row-major grid of `int8`
intensity values together with terminal dimensions, an output buffer, a
render counter and a pseudo-random generator.  We embed the state as
`Flame` below.  The generator is modelled as an infinite stream of draws
`rnd : Nat → Fin 6` plus a cursor `pos`: every random draw made by the
program is `rand.Intn(6)`, which always yields a value in `[0, 6)`.

Go slice indexing panics when the index is negative or not below the
length; operations that index the grid are therefore embedded as
`Option`-valued functions, `none` marking a panic.  Go `int8` arithmetic
wraps around; `wrap8` embeds that wrap-around on values carried as `Int`.
-/

/-- State of the Go `Flame` struct.  `grid` holds `int8` values as `Int`
(kept in `[-128, 127]` by `wrap8` at every write), `buffer` is the
`bytes.Buffer` contents, `renders` the render counter, and `(rnd, pos)`
the pseudo-random generator: the stream of future `Intn(6)` draws and the
number of draws consumed so far. -/
structure Flame where
  width : Nat
  height : Nat
  grid : List Int
  buffer : String
  renders : Nat
  rnd : Nat → Fin 6
  pos : Nat

/-- Two's-complement wrap-around of an integer into the `int8` range
`[-128, 127]`, as performed by Go `int8` arithmetic. -/
def wrap8 (z : Int) : Int :=
  (z + 128) % 256 - 128

/-- The 36-entry color table `cmap` of `mapColor`, transcribed verbatim
from the source. -/
def palette : List (Nat × Nat × Nat) :=
  [(0x07, 0x07, 0x07), (0x1f, 0x07, 0x07), (0x2f, 0x0f, 0x07),
   (0x47, 0x0f, 0x07), (0x57, 0x17, 0x07), (0x67, 0x1f, 0x07),
   (0x77, 0x1f, 0x07), (0x8f, 0x27, 0x07), (0x9f, 0x2f, 0x07),
   (0xaf, 0x3f, 0x07), (0xbf, 0x47, 0x07), (0xc7, 0x47, 0x07),
   (0xdf, 0x4f, 0x07), (0xdf, 0x57, 0x07), (0xdf, 0x57, 0x07),
   (0xd7, 0x5f, 0x07), (0xd7, 0x67, 0x0f), (0xcf, 0x6f, 0x0f),
   (0xcf, 0x77, 0x0f), (0xcf, 0x7f, 0x0f), (0xcf, 0x87, 0x17),
   (0xc7, 0x87, 0x17), (0xc7, 0x8f, 0x17), (0xc7, 0x97, 0x1f),
   (0xbf, 0x9f, 0x1f), (0xbf, 0x9f, 0x1f), (0xbf, 0xa7, 0x27),
   (0xbf, 0xa7, 0x27), (0xbf, 0xaf, 0x2f), (0xb7, 0xaf, 0x2f),
   (0xb7, 0xb7, 0x2f), (0xb7, 0xb7, 0x37), (0xcf, 0xcf, 0x6f),
   (0xdf, 0xdf, 0x9f), (0xef, 0xef, 0xc7), (0xff, 0xff, 0xff)]

/-- `mapColor` from the source: intensities in `[0, 36)` index the
palette, everything else (the Go check is `v < 0 || int(v) >= len(cmap)`)
maps to black `(0,0,0)`. -/
def mapColor (v : Int) : Nat × Nat × Nat :=
  if v < 0 ∨ 36 ≤ v then (0, 0, 0) else palette.getD v.toNat (0, 0, 0)

/-- Helper for `Flame.Init`: the loop `for j ...` writing `35` into the
bottom row, one checked write `grid[(height-1)*width + j] = 35` per
element of `js`.  The index is computed in `Int` because Go evaluates
`(flame.height-1)*flame.width + j` in `int`, and a negative index (which
arises when `height = 0` and `width > 0`) panics. -/
def setBottom (w h : Nat) : List Nat → List Int → Option (List Int)
  | [], g => some g
  | j :: rest, g =>
    if 0 ≤ ((h : Int) - 1) * w + j ∧ (((h : Int) - 1) * w + j).toNat < g.length then
      setBottom w h rest (g.set (((h : Int) - 1) * w + j).toNat 35)
    else none

/-- `Flame.Init` from the source: allocate a zeroed grid of
`width * height` cells, then set every bottom-row cell to `35`. -/
def initGo (fl : Flame) : Option Flame :=
  match setBottom fl.width fl.height (List.range fl.width)
      (List.replicate (fl.width * fl.height) (0 : Int)) with
  | none => none
  | some g => some { fl with grid := g }

/-- `Flame.SetDimensions` from the source: store the new dimensions and
reinitialize the grid. -/
def setDimensionsGo (fl : Flame) (w h : Nat) : Option Flame :=
  initGo { fl with width := w, height := h }

/-- The source rows visited by the `Spread` loop
`for y := height - 1; y > 0; y--`: the list `[height-1, ..., 1]`. -/
def srcRows (h : Nat) : List Nat :=
  (List.range (h - 1)).map (fun i => h - 1 - i)

/-- The `(y, x)` pairs visited by the two nested `Spread` loops, in
visiting order: `y` from `height-1` down to `1`, and for each `y`,
`x` from `0` to `width-1`. -/
def cellSteps (w h : Nat) : List (Nat × Nat) :=
  (srcRows h).flatMap (fun y => (List.range w).map (fun x => (y, x)))

/-- The overflow clamp of `Spread`:
`if dst > width*height - 1 { dst = width*height - 1 }`. -/
def clampIdx (w h : Nat) (dst : Int) : Int :=
  if dst > (w : Int) * h - 1 then (w : Int) * h - 1 else dst

/-- The upper clip of `Spread`: `if grid[dst] > 35 { grid[dst] = 35 }`. -/
def clip35 (v : Int) : Int := if v > 35 then 35 else v

/-- The lower clip of `Spread`: `if grid[dst] < 0 { grid[dst] = 0 }`. -/
def clip0 (v : Int) : Int := if v < 0 then 0 else v

/-- One iteration of the `Spread` inner loop body, on state
`(grid, pos)`.  Faithful to the source: the jitter draw is consumed
first; if the destination `dst = src - width + Intn(6) - 2` falls below
`(y-1)*width` or above `y*width + width` the cell is skipped (only one
draw consumed); otherwise `dst` is clamped to the last grid index, the
decay draw is consumed, and `grid[dst] = grid[src] - int8(Intn(6)-1)` is
written (with `int8` wrap-around), then clipped to `35` from above and to
`0` from below.  A grid access out of bounds is a panic (`none`). -/
def spreadCell (w h : Nat) (r : Nat → Fin 6) (y x : Nat) (s : List Int × Nat) :
    Option (List Int × Nat) :=
  if ((y * w + x : Nat) : Int) - w + ((r s.2).val : Int) - 2 < ((y : Int) - 1) * w ∨
      ((y * w + x : Nat) : Int) - w + ((r s.2).val : Int) - 2 > (y : Int) * w + w then
    some (s.1, s.2 + 1)
  else
    match s.1[y * w + x]? with
    | none => none
    | some sv =>
      if 0 ≤ clampIdx w h (((y * w + x : Nat) : Int) - w + ((r s.2).val : Int) - 2) ∧
          (clampIdx w h (((y * w + x : Nat) : Int) - w + ((r s.2).val : Int) - 2)).toNat
            < s.1.length then
        some (s.1.set
          (clampIdx w h (((y * w + x : Nat) : Int) - w + ((r s.2).val : Int) - 2)).toNat
          (clip0 (clip35 (wrap8 (sv - (((r (s.2 + 1)).val : Int) - 1))))), s.2 + 2)
      else none

/-- The `Spread` double loop, folded over the visiting order. -/
def runCells (w h : Nat) (r : Nat → Fin 6) :
    List (Nat × Nat) → List Int × Nat → Option (List Int × Nat)
  | [], s => some s
  | p :: rest, s =>
    match spreadCell w h r p.1 p.2 s with
    | none => none
    | some s2 => runCells w h r rest s2

/-- `Flame.Spread` from the source. -/
def spreadGo (fl : Flame) : Option Flame :=
  match runCells fl.width fl.height fl.rnd (cellSteps fl.width fl.height) (fl.grid, fl.pos) with
  | none => none
  | some s => some { fl with grid := s.1, pos := s.2 }

/-- `n` successive `Spread` calls. -/
def iterateSpread : Nat → Flame → Option Flame
  | 0, fl => some fl
  | n + 1, fl =>
    match spreadGo fl with
    | none => none
    | some fl2 => iterateSpread n fl2

/-- One propagation step as worded by the specification (claim C2): the
destination flat index is `(y-1)*width + x + (j-2)`; skip outside
`[(y-1)*width, y*width + width]`; clamp past the last grid cell; the
written value is the source value minus a random integer in `[-1, 5)`,
clamped into `[0, 35]` — plain integer arithmetic, total reads. -/
def spreadSpecCell (w h : Nat) (r : Nat → Fin 6) (y x : Nat) (s : List Int × Nat) :
    List Int × Nat :=
  if ((y : Int) - 1) * w + x + (((r s.2).val : Int) - 2) < ((y : Int) - 1) * w ∨
      ((y : Int) - 1) * w + x + (((r s.2).val : Int) - 2) > (y : Int) * w + w then
    (s.1, s.2 + 1)
  else
    (s.1.set
      (clampIdx w h (((y : Int) - 1) * w + x + (((r s.2).val : Int) - 2))).toNat
      (max 0 (min 35 (s.1.getD (y * w + x) 0 - (((r (s.2 + 1)).val : Int) - 1)))),
      s.2 + 2)

/-- The specification-worded propagation pass: same visiting order
(bottom non-excluded row upward, columns left to right), spec cell step. -/
def runCellsSpec (w h : Nat) (r : Nat → Fin 6) :
    List (Nat × Nat) → List Int × Nat → List Int × Nat
  | [], s => s
  | p :: rest, s => runCellsSpec w h r rest (spreadSpecCell w h r p.1 p.2 s)

/-- The specification-worded `Propagate()` on a whole `Flame`. -/
def spreadSpecFlame (fl : Flame) : Flame :=
  { fl with
    grid := (runCellsSpec fl.width fl.height fl.rnd (cellSteps fl.width fl.height)
      (fl.grid, fl.pos)).1,
    pos := (runCellsSpec fl.width fl.height fl.rnd (cellSteps fl.width fl.height)
      (fl.grid, fl.pos)).2 }

/-- Terminal output tokens: the cursor-home sequence, a 24-bit
set-foreground sequence, a 24-bit set-background sequence, and the
half-block glyph.  Each token stands for the exact byte string given by
`Tok.bytes`. -/
inductive Tok where
  | home : Tok
  | setFg : Nat × Nat × Nat → Tok
  | setBg : Nat × Nat × Nat → Tok
  | glyph : Tok
deriving DecidableEq

/-- The byte string each token stands for in the Go output. -/
def Tok.bytes : Tok → String
  | Tok.home => "\x1b[0;0H"
  | Tok.setFg c => "\x1b[38;2;" ++ toString c.1 ++ ";" ++ toString c.2.1 ++ ";"
      ++ toString c.2.2 ++ "m"
  | Tok.setBg c => "\x1b[48;2;" ++ toString c.1 ++ ";" ++ toString c.2.1 ++ ";"
      ++ toString c.2.2 ++ "m"
  | Tok.glyph => "▀"

/-- Byte string of a token list. -/
def frameBytes (toks : List Tok) : String :=
  String.join (toks.map Tok.bytes)

/-- The `(y, x)` pairs visited by the `Render` loops, in order: `y` over
even values below `height`, `x` from `0` to `width-1`. -/
def renderPairs (w h : Nat) : List (Nat × Nat) :=
  ((List.range h).filter (fun y => y % 2 = 0)).flatMap
    (fun y => (List.range w).map (fun x => (y, x)))

/-- The color lookups of one `Render` pass, in visiting order: for the
cell at `(y, x)` the foreground comes from `grid[y*width + x]` and the
background from `grid[(y+1)*width + x]`.  An out-of-bounds grid access is
a panic (`none`), and a panic anywhere aborts the whole frame (the Go
buffer is only flushed after the loop completes). -/
def cellColors (w : Nat) (g : List Int) : List (Nat × Nat) → Option (List ((Nat × Nat × Nat) × (Nat × Nat × Nat)))
  | [] => some []
  | p :: rest =>
    match g[p.1 * w + p.2]?, g[(p.1 + 1) * w + p.2]? with
    | some a, some b =>
      match cellColors w g rest with
      | none => none
      | some t => some ((mapColor a, mapColor b) :: t)
    | _, _ => none

/-- The emission loop of `Render`, with the color-change suppression
cache: a set-foreground token is emitted only when the cell's foreground
differs from the cached `prevfg`, likewise for the background, then one
glyph per cell.  After a cell, the cache holds that cell's colors. -/
def emitCells : List ((Nat × Nat × Nat) × (Nat × Nat × Nat)) → (Nat × Nat × Nat) → (Nat × Nat × Nat) → List Tok
  | [], _, _ => []
  | c :: rest, pf, pb =>
    (if c.1 ≠ pf then [Tok.setFg c.1] else []) ++
      (if c.2 ≠ pb then [Tok.setBg c.2] else []) ++
      Tok.glyph :: emitCells rest c.1 c.2

/-- A renderer that emits both color tokens unconditionally for every
cell (the comparison renderer of claim C7). -/
def emitAll : List ((Nat × Nat × Nat) × (Nat × Nat × Nat)) → List Tok
  | [] => []
  | c :: rest => Tok.setFg c.1 :: Tok.setBg c.2 :: Tok.glyph :: emitAll rest

/-- One `Render` frame as a token list: the cursor-home sequence, then
the emission loop with both cached colors starting at the zero value
`(0,0,0)` (`prevbg, prevfg := [3]uint8{}, [3]uint8{}`). -/
def renderCore (w h : Nat) (g : List Int) : Option (List Tok) :=
  match cellColors w g (renderPairs w h) with
  | none => none
  | some cps => some (Tok.home :: emitCells cps (0, 0, 0) (0, 0, 0))

/-- The unconditional-emission variant of `renderCore` (claim C7). -/
def renderAllCore (w h : Nat) (g : List Int) : Option (List Tok) :=
  match cellColors w g (renderPairs w h) with
  | none => none
  | some cps => some (Tok.home :: emitAll cps)

/-- `Flame.Render` from the source: compose the frame in the buffer,
flush buffer contents to standard output (the returned `String`), reset
the buffer and increment the render counter. -/
def renderGo (fl : Flame) : Option (String × Flame) :=
  match renderCore fl.width fl.height fl.grid with
  | none => none
  | some toks =>
    some (fl.buffer ++ frameBytes toks,
      { fl with buffer := "", renders := fl.renders + 1 })

/-- A terminal decoder: it tracks the current foreground and background
colors while scanning a token stream (starting from arbitrary initial
colors) and records the color pair in effect at every glyph. -/
def decodeToks : List Tok → (Nat × Nat × Nat) → (Nat × Nat × Nat) → List ((Nat × Nat × Nat) × (Nat × Nat × Nat))
  | [], _, _ => []
  | Tok.home :: rest, f, b => decodeToks rest f b
  | Tok.setFg c :: rest, _, b => decodeToks rest c b
  | Tok.setBg c :: rest, f, _ => decodeToks rest f c
  | Tok.glyph :: rest, f, b => (f, b) :: decodeToks rest f b

/-- A fresh `Flame` as built by `newFlame(withDimentions(w, h))`: empty
grid, empty buffer, zero renders, a given generator stream. -/
def mkFlame (w h : Nat) (r : Nat → Fin 6) : Flame :=
  { width := w, height := h, grid := [], buffer := "", renders := 0, rnd := r, pos := 0 }

/-- A concrete generator stream used by the concrete instances below:
draws number `0..3` are `0`, all later draws are `5`. -/
def rEx : Nat → Fin 6 := fun n => if n < 4 then 0 else 5

/-- The 4-by-2 state produced by `Init` on a fresh 4-by-2 flame. -/
def flEx : Flame := { mkFlame 4 2 rEx with grid := [0, 0, 0, 0, 35, 35, 35, 35] }

/-- The state `Spread` produces from `flEx` under the stream `rEx`. -/
def flExOut : Flame :=
  { width := 4, height := 2, grid := [35, 0, 0, 0, 35, 35, 31, 35], buffer := "",
    renders := 0, rnd := rEx, pos := 6 }

/-- A state agreeing with `flB` on width, height, grid and generator but
not on buffer or render counter. -/
def flA : Flame :=
  { width := 4, height := 2, grid := [0, 0, 0, 0, 35, 35, 35, 35], buffer := "alpha",
    renders := 3, rnd := rEx, pos := 0 }

/-- See `flA`. -/
def flB : Flame :=
  { width := 4, height := 2, grid := [0, 0, 0, 0, 35, 35, 35, 35], buffer := "beta",
    renders := 9, rnd := rEx, pos := 0 }

/-- A 2-by-2 state with all cells in `[0, 35]`. -/
def flRender : Flame := { mkFlame 2 2 rEx with grid := [0, 1, 35, 35] }

theorem wrap8_eq_self {z : Int} (h1 : -128 ≤ z) (h2 : z ≤ 127) : wrap8 z = z := by
  unfold wrap8; omega

theorem clips_eq_clamp (z : Int) :
    clip0 (clip35 z) = max 0 (min 35 z) := by
  unfold clip0 clip35
  split <;> split <;> omega

theorem getD_mem_of_lt {l : List Int} {i : Nat} (h : i < l.length) : l.getD i 0 ∈ l := by
  rw [List.getD_eq_getElem?_getD, List.getElem?_eq_getElem h]
  exact List.getElem_mem h

theorem mem_cellSteps {w h : Nat} {p : Nat × Nat} (hp : p ∈ cellSteps w h) :
    1 ≤ p.1 ∧ p.2 < w ∧ p.1 * w + p.2 < w * h := by
  rcases List.mem_flatMap.1 hp with ⟨y, hy, hx⟩
  rcases List.mem_map.1 hx with ⟨x, hxr, rfl⟩
  rcases List.mem_map.1 hy with ⟨i, hir, rfl⟩
  have hi : i < h - 1 := List.mem_range.1 hir
  have hx2 : x < w := List.mem_range.1 hxr
  refine ⟨by omega, hx2, ?_⟩
  have h2 : 2 ≤ h := by omega
  calc (h - 1 - i) * w + x < (h - 1 - i) * w + w := by omega
    _ = (h - 1 - i + 1) * w := by ring
    _ ≤ h * w := Nat.mul_le_mul_right w (by omega)
    _ = w * h := Nat.mul_comm h w

theorem spreadCell_eq_spec (w h : Nat) (r : Nat → Fin 6) (y x : Nat) (g : List Int) (pos : Nat)
    (hlen : g.length = w * h) (hy : 1 ≤ y) (hsrc : y * w + x < w * h)
    (hg : ∀ v ∈ g, 0 ≤ v ∧ v ≤ 35) :
    spreadCell w h r y x (g, pos) = some (spreadSpecCell w h r y x (g, pos)) ∧
    (spreadSpecCell w h r y x (g, pos)).1.length = w * h ∧
    (∀ v ∈ (spreadSpecCell w h r y x (g, pos)).1, 0 ≤ v ∧ v ≤ 35) := by
  have hde : ((y * w + x : Nat) : Int) - w + ((r pos).val : Int) - 2
      = ((y : Int) - 1) * w + x + (((r pos).val : Int) - 2) := by push_cast; ring
  have hsl : y * w + x < g.length := by omega
  have hsv : g[y * w + x]? = some (g.getD (y * w + x) 0) := by
    rw [List.getD_eq_getElem?_getD, List.getElem?_eq_getElem hsl]
    rfl
  simp only [spreadCell, spreadSpecCell, hsv, hde]
  by_cases hskip : ((y : Int) - 1) * w + x + (((r pos).val : Int) - 2) < ((y : Int) - 1) * w ∨
      ((y : Int) - 1) * w + x + (((r pos).val : Int) - 2) > (y : Int) * w + w
  · simp only [if_pos hskip]
    exact ⟨trivial, hlen, hg⟩
  · simp only [if_neg hskip]
    push_neg at hskip
    have hy0 : (0 : Int) ≤ ((y : Int) - 1) * w := by
      have : (0 : Int) ≤ (y : Int) - 1 := by omega
      positivity
    have hwh : 1 ≤ w * h := by omega
    have hcl : 0 ≤ clampIdx w h (((y : Int) - 1) * w + x + (((r pos).val : Int) - 2)) ∧
        clampIdx w h (((y : Int) - 1) * w + x + (((r pos).val : Int) - 2))
          ≤ (w : Int) * h - 1 := by
      unfold clampIdx
      constructor
      · split
        · omega
        · omega
      · split
        · omega
        · omega
    have hclt : (clampIdx w h
        (((y : Int) - 1) * w + x + (((r pos).val : Int) - 2))).toNat < g.length := by
      have : ((w : Int) * h - 1).toNat < w * h := by omega
      omega
    rw [if_pos ⟨hcl.1, hclt⟩]
    have hsvr : 0 ≤ g.getD (y * w + x) 0 ∧ g.getD (y * w + x) 0 ≤ 35 :=
      hg _ (getD_mem_of_lt hsl)
    have hr6 : ((r (pos + 1)).val : Int) < 6 := by exact_mod_cast Int.ofNat_lt.2 (r (pos + 1)).isLt
    have hw : wrap8 (g.getD (y * w + x) 0 - (((r (pos + 1)).val : Int) - 1))
        = g.getD (y * w + x) 0 - (((r (pos + 1)).val : Int) - 1) := by
      apply wrap8_eq_self <;> omega
    rw [hw, clips_eq_clamp]
    refine ⟨rfl, ?_, ?_⟩
    · rw [List.length_set]; exact hlen
    · intro v hv
      rcases List.mem_or_eq_of_mem_set hv with hvm | rfl
      · exact hg _ hvm
      · omega

theorem runCells_eq_spec (w h : Nat) (r : Nat → Fin 6) :
    ∀ (steps : List (Nat × Nat)) (g : List Int) (pos : Nat),
    g.length = w * h → (∀ p ∈ steps, 1 ≤ p.1 ∧ p.1 * w + p.2 < w * h) →
    (∀ v ∈ g, 0 ≤ v ∧ v ≤ 35) →
    runCells w h r steps (g, pos) = some (runCellsSpec w h r steps (g, pos)) ∧
    (runCellsSpec w h r steps (g, pos)).1.length = w * h ∧
    (∀ v ∈ (runCellsSpec w h r steps (g, pos)).1, 0 ≤ v ∧ v ≤ 35)
  | [], g, pos, hlen, _, hg => ⟨rfl, hlen, hg⟩
  | p :: rest, g, pos, hlen, hsteps, hg => by
    have hp := hsteps p (List.mem_cons_self p rest)
    have hc := spreadCell_eq_spec w h r p.1 p.2 g pos hlen hp.1 hp.2 hg
    have hrest := runCells_eq_spec w h r rest (spreadSpecCell w h r p.1 p.2 (g, pos)).1
      (spreadSpecCell w h r p.1 p.2 (g, pos)).2 hc.2.1
      (fun q hq => hsteps q (List.mem_cons_of_mem p hq)) hc.2.2
    refine ⟨?_, ?_, ?_⟩
    · show (match spreadCell w h r p.1 p.2 (g, pos) with
        | none => none
        | some s2 => runCells w h r rest s2) = _
      rw [hc.1]
      exact hrest.1
    · exact hrest.2.1
    · exact hrest.2.2

theorem spreadGo_eq_spec (fl : Flame) (hlen : fl.grid.length = fl.width * fl.height)
    (hg : ∀ v ∈ fl.grid, 0 ≤ v ∧ v ≤ 35) :
    spreadGo fl = some (spreadSpecFlame fl) := by
  have := runCells_eq_spec fl.width fl.height fl.rnd (cellSteps fl.width fl.height)
    fl.grid fl.pos hlen (fun p hp => ⟨(mem_cellSteps hp).1, (mem_cellSteps hp).2.2⟩) hg
  unfold spreadGo spreadSpecFlame
  rw [this.1]

theorem spreadGo_preserves (fl : Flame) (hlen : fl.grid.length = fl.width * fl.height)
    (hg : ∀ v ∈ fl.grid, 0 ≤ v ∧ v ≤ 35) :
    ∃ fl2, spreadGo fl = some fl2 ∧ fl2.width = fl.width ∧ fl2.height = fl.height ∧
      fl2.grid.length = fl2.width * fl2.height ∧ (∀ v ∈ fl2.grid, 0 ≤ v ∧ v ≤ 35) := by
  have hrc := runCells_eq_spec fl.width fl.height fl.rnd (cellSteps fl.width fl.height)
    fl.grid fl.pos hlen (fun p hp => ⟨(mem_cellSteps hp).1, (mem_cellSteps hp).2.2⟩) hg
  refine ⟨spreadSpecFlame fl, spreadGo_eq_spec fl hlen hg, rfl, rfl, ?_, ?_⟩
  · exact hrc.2.1
  · exact hrc.2.2

theorem getD_set_of_lt (l : List Int) (i : Nat) (a : Int) (j : Nat) :
    (l.set i a).getD j 0 = if i = j ∧ j < l.length then a else l.getD j 0 := by
  by_cases hj : j < l.length
  · by_cases hij : i = j
    · subst hij
      rw [if_pos ⟨rfl, hj⟩, List.getD_eq_getElem?_getD, List.getElem?_set_self]
      · rfl
      · exact hj
    · rw [if_neg (fun hc => hij hc.1), List.getD_eq_getElem?_getD,
        List.getElem?_set_ne hij, List.getD_eq_getElem?_getD]
  · rw [if_neg (fun hc => hj hc.2), List.getD_eq_getElem?_getD, List.getD_eq_getElem?_getD]
    rw [List.getElem?_eq_none, List.getElem?_eq_none]
    · omega
    · rw [List.length_set]; omega

theorem setBottom_spec (w h : Nat) (hh : 1 ≤ h) :
    ∀ (js : List Nat) (g : List Int), (∀ j ∈ js, (h - 1) * w + j < g.length) →
    ∃ g2, setBottom w h js g = some g2 ∧ g2.length = g.length ∧
      ∀ i, g2.getD i 0 = if ∃ j ∈ js, (h - 1) * w + j = i then 35 else g.getD i 0
  | [], g, _ => ⟨g, rfl, rfl, by simp⟩
  | j :: rest, g, hjs => by
    have hj : (h - 1) * w + j < g.length := hjs j (List.mem_cons_self j rest)
    have hidx : ((h : Int) - 1) * w + j = (((h - 1) * w + j : Nat) : Int) := by
      push_cast
      have hcast : ((h - 1 : Nat) : Int) = (h : Int) - 1 := by omega
      rw [hcast]
    have hrest := setBottom_spec w h hh rest (g.set ((h - 1) * w + j) 35)
      (fun q hq => by rw [List.length_set]; exact hjs q (List.mem_cons_of_mem j hq))
    rcases hrest with ⟨g2, hg2, hlen2, hget2⟩
    refine ⟨g2, ?_, ?_, ?_⟩
    · show (if 0 ≤ ((h : Int) - 1) * w + j ∧ (((h : Int) - 1) * w + j).toNat < g.length
        then setBottom w h rest (g.set (((h : Int) - 1) * w + j).toNat 35) else none) = some g2
      rw [hidx]
      rw [if_pos ⟨by positivity, by simpa using hj⟩]
      simpa using hg2
    · rw [hlen2, List.length_set]
    · intro i
      rw [hget2 i, getD_set_of_lt]
      by_cases h1 : ∃ q ∈ rest, (h - 1) * w + q = i
      · rcases h1 with ⟨q, hq, hqi⟩
        rw [if_pos ⟨q, hq, hqi⟩, if_pos ⟨q, List.mem_cons_of_mem j hq, hqi⟩]
      · rw [if_neg h1]
        by_cases h2 : (h - 1) * w + j = i
        · rw [if_pos ⟨h2, by omega⟩, if_pos ⟨j, List.mem_cons_self j rest, h2⟩]
        · rw [if_neg (fun hc => h2 hc.1), if_neg ?_]
          rintro ⟨q, hq, hqi⟩
          rcases List.mem_cons.1 hq with rfl | hq2
          · exact h2 hqi
          · exact h1 ⟨q, hq2, hqi⟩

theorem initGo_spec (fl : Flame) (hh : 1 ≤ fl.height) :
    ∃ fl2, initGo fl = some fl2 ∧ fl2.width = fl.width ∧ fl2.height = fl.height ∧
      fl2.buffer = fl.buffer ∧ fl2.renders = fl.renders ∧
      fl2.grid.length = fl.width * fl.height ∧
      ∀ i, i < fl.width * fl.height →
        fl2.grid.getD i 0 = if (fl.height - 1) * fl.width ≤ i then 35 else 0 := by
  have hsb := setBottom_spec fl.width fl.height hh (List.range fl.width)
    (List.replicate (fl.width * fl.height) (0 : Int))
    (fun j hj => by
      rw [List.length_replicate]
      have hjw : j < fl.width := List.mem_range.1 hj
      have h2 : (fl.height - 1) * fl.width + fl.width = fl.height * fl.width := by
        have : fl.height - 1 + 1 = fl.height := by omega
        calc (fl.height - 1) * fl.width + fl.width = (fl.height - 1 + 1) * fl.width := by ring
          _ = fl.height * fl.width := by rw [this]
      calc (fl.height - 1) * fl.width + j < (fl.height - 1) * fl.width + fl.width := by omega
        _ = fl.height * fl.width := h2
        _ = fl.width * fl.height := Nat.mul_comm _ _)
  rcases hsb with ⟨g2, hg2, hlen2, hget2⟩
  refine ⟨{ fl with grid := g2 }, ?_, rfl, rfl, rfl, rfl, ?_, ?_⟩
  · unfold initGo
    rw [hg2]
  · rw [hlen2, List.length_replicate]
  · intro i hi
    rw [hget2 i]
    have hrep : (List.replicate (fl.width * fl.height) (0 : Int)).getD i 0 = 0 := by
      rcases Nat.lt_or_ge i (fl.width * fl.height) with hlt | hge
      · rw [List.getD_eq_getElem?_getD, List.getElem?_replicate, if_pos hlt]
        rfl
      · rw [List.getD_eq_getElem?_getD, List.getElem?_eq_none (by
          rw [List.length_replicate]; omega)]
        rfl
    rw [hrep]
    by_cases hbr : (fl.height - 1) * fl.width ≤ i
    · rw [if_pos hbr, if_pos ?_]
      refine ⟨i - (fl.height - 1) * fl.width, List.mem_range.2 ?_, by omega⟩
      have h2 : (fl.height - 1) * fl.width + fl.width = fl.height * fl.width := by
        have h3 : fl.height - 1 + 1 = fl.height := by omega
        calc (fl.height - 1) * fl.width + fl.width = (fl.height - 1 + 1) * fl.width := by ring
          _ = fl.height * fl.width := by rw [h3]
      have h4 : fl.width * fl.height = fl.height * fl.width := Nat.mul_comm _ _
      omega
    · rw [if_neg hbr, if_neg ?_]
      rintro ⟨q, hq, hqi⟩
      exact hbr (by omega)

theorem renderPairs_nil (w h : Nat) (hwh : w = 0 ∨ h = 0) : renderPairs w h = [] := by
  rcases hwh with rfl | rfl
  · simp [renderPairs]
  · simp [renderPairs]

theorem mem_renderPairs {w h : Nat} {p : Nat × Nat} (hp : p ∈ renderPairs w h) :
    p.1 % 2 = 0 ∧ p.1 < h ∧ p.2 < w := by
  rcases List.mem_flatMap.1 hp with ⟨y, hy, hx⟩
  rcases List.mem_map.1 hx with ⟨x, hxr, rfl⟩
  have hyf := List.mem_filter.1 hy
  refine ⟨by simpa using hyf.2, List.mem_range.1 hyf.1, List.mem_range.1 hxr⟩

theorem renderPairs_bounds {w h : Nat} (heven : h % 2 = 0) {p : Nat × Nat}
    (hp : p ∈ renderPairs w h) :
    p.1 * w + p.2 < w * h ∧ (p.1 + 1) * w + p.2 < w * h := by
  rcases mem_renderPairs hp with ⟨hy2, hyh, hxw⟩
  have hy3 : p.1 + 1 ≤ h - 1 := by omega
  have hstep : (p.1 + 1 + 1) * w ≤ h * w := Nat.mul_le_mul_right w (by omega)
  have hq : (p.1 + 1) * w + p.2 < (p.1 + 1 + 1) * w := by
    have : (p.1 + 1 + 1) * w = (p.1 + 1) * w + w := by ring
    omega
  constructor
  · have : p.1 * w + p.2 < (p.1 + 1) * w := by
      have : (p.1 + 1) * w = p.1 * w + w := by ring
      omega
    have h2 : (p.1 + 1) * w ≤ h * w := Nat.mul_le_mul_right w (by omega)
    have h3 : h * w = w * h := Nat.mul_comm _ _
    omega
  · have h3 : h * w = w * h := Nat.mul_comm _ _
    omega

theorem cellColors_spec (w : Nat) (g : List Int) :
    ∀ ps : List (Nat × Nat),
    (∀ p ∈ ps, p.1 * w + p.2 < g.length ∧ (p.1 + 1) * w + p.2 < g.length) →
    cellColors w g ps = some (ps.map (fun p =>
      (mapColor (g.getD (p.1 * w + p.2) 0), mapColor (g.getD ((p.1 + 1) * w + p.2) 0))))
  | [], _ => rfl
  | p :: rest, hb => by
    have hp := hb p (List.mem_cons_self p rest)
    have h1 : g[p.1 * w + p.2]? = some (g.getD (p.1 * w + p.2) 0) := by
      rw [List.getD_eq_getElem?_getD, List.getElem?_eq_getElem hp.1]
      rfl
    have h2 : g[(p.1 + 1) * w + p.2]? = some (g.getD ((p.1 + 1) * w + p.2) 0) := by
      rw [List.getD_eq_getElem?_getD, List.getElem?_eq_getElem hp.2]
      rfl
    have hrest := cellColors_spec w g rest (fun q hq => hb q (List.mem_cons_of_mem p hq))
    show (match g[p.1 * w + p.2]?, g[(p.1 + 1) * w + p.2]? with
      | some a, some b =>
        match cellColors w g rest with
        | none => none
        | some t => some ((mapColor a, mapColor b) :: t)
      | _, _ => none) = _
    rw [h1, h2, hrest]
    simp

theorem decodeToks_emitAll (cps : List ((Nat × Nat × Nat) × (Nat × Nat × Nat))) :
    ∀ f b, decodeToks (emitAll cps) f b = cps := by
  induction cps with
  | nil => intro f b; rfl
  | cons c rest ih =>
    intro f b
    show decodeToks (Tok.setFg c.1 :: Tok.setBg c.2 :: Tok.glyph :: emitAll rest) f b = c :: rest
    show (c.1, c.2) :: decodeToks (emitAll rest) c.1 c.2 = c :: rest
    rw [ih]

theorem decodeToks_emitCells (cps : List ((Nat × Nat × Nat) × (Nat × Nat × Nat))) :
    ∀ pf pb df db, (pf = df ∨ ∀ p ∈ cps, p.1 ≠ pf) → (pb = db ∨ ∀ p ∈ cps, p.2 ≠ pb) →
    decodeToks (emitCells cps pf pb) df db = cps := by
  induction cps with
  | nil => intro _ _ _ _ _ _; rfl
  | cons c rest ih =>
    obtain ⟨c1, c2⟩ := c
    intro pf pb df db hf hb
    have hf2 : c1 = pf → pf = df := fun he => hf.resolve_right
      (fun h => absurd he (h (c1, c2) (List.mem_cons_self _ _)))
    have hb2 : c2 = pb → pb = db := fun he => hb.resolve_right
      (fun h => absurd he (h (c1, c2) (List.mem_cons_self _ _)))
    simp only [emitCells]
    by_cases h1 : c1 ≠ pf <;> by_cases h2 : c2 ≠ pb
    · rw [if_pos h1, if_pos h2]
      simp only [List.cons_append, List.nil_append, decodeToks]
      rw [ih c1 c2 c1 c2 (Or.inl rfl) (Or.inl rfl)]
    · have hc2 : c2 = pb := not_not.1 h2
      have hdb : pb = db := hb2 hc2
      subst hc2; subst hdb
      rw [if_pos h1, if_neg h2]
      simp only [List.cons_append, List.nil_append, decodeToks]
      rw [ih c1 c2 c1 c2 (Or.inl rfl) (Or.inl rfl)]
    · have hc1 : c1 = pf := not_not.1 h1
      have hdf : pf = df := hf2 hc1
      subst hc1; subst hdf
      rw [if_neg h1, if_pos h2]
      simp only [List.cons_append, List.nil_append, decodeToks]
      rw [ih c1 c2 c1 c2 (Or.inl rfl) (Or.inl rfl)]
    · have hc1 : c1 = pf := not_not.1 h1
      have hc2 : c2 = pb := not_not.1 h2
      have hdf : pf = df := hf2 hc1
      have hdb : pb = db := hb2 hc2
      subst hc1; subst hdf; subst hc2; subst hdb
      rw [if_neg h1, if_neg h2]
      simp only [List.cons_append, List.nil_append, decodeToks]
      rw [ih c1 c2 c1 c2 (Or.inl rfl) (Or.inl rfl)]

theorem palette_getD_ne_black : ∀ n : Nat, n < 36 → palette.getD n (0, 0, 0) ≠ (0, 0, 0) := by
  decide

theorem palette_len : palette.length = 36 := by decide

theorem mapColor_in_range {v : Int} (h0 : 0 ≤ v) (h35 : v ≤ 35) :
    mapColor v = palette.getD v.toNat (0, 0, 0) := by
  unfold mapColor
  rw [if_neg (by omega)]

theorem mapColor_ne_black {v : Int} (h0 : 0 ≤ v) (h35 : v ≤ 35) : mapColor v ≠ (0, 0, 0) := by
  rw [mapColor_in_range h0 h35]
  exact palette_getD_ne_black v.toNat (by omega)

theorem mapColor_mem_palette {v : Int} (h0 : 0 ≤ v) (h35 : v ≤ 35) : mapColor v ∈ palette := by
  rw [mapColor_in_range h0 h35]
  have hlt : v.toNat < palette.length := by rw [palette_len]; omega
  rw [List.getD_eq_getElem?_getD, List.getElem?_eq_getElem hlt]
  exact List.getElem_mem hlt

theorem mapColor_out_of_range {v : Int} (h : v < 0 ∨ 35 < v) : mapColor v = (0, 0, 0) := by
  unfold mapColor
  rw [if_pos (by omega)]

theorem renderCore_spec (w h : Nat) (g : List Int) (hlen : g.length = w * h)
    (hok : h % 2 = 0 ∨ w = 0) :
    cellColors w g (renderPairs w h) = some ((renderPairs w h).map (fun p =>
      (mapColor (g.getD (p.1 * w + p.2) 0), mapColor (g.getD ((p.1 + 1) * w + p.2) 0)))) := by
  apply cellColors_spec
  intro p hp
  rcases hok with heven | hw0
  · have := renderPairs_bounds heven hp
    omega
  · rw [renderPairs_nil w h (Or.inl hw0)] at hp
    cases hp

theorem renderCps_nonblack {w h : Nat} {g : List Int} (hlen : g.length = w * h)
    (hok : h % 2 = 0 ∨ w = 0) (hg : ∀ v ∈ g, 0 ≤ v ∧ v ≤ 35) :
    ∀ p ∈ (renderPairs w h).map (fun p =>
      (mapColor (g.getD (p.1 * w + p.2) 0), mapColor (g.getD ((p.1 + 1) * w + p.2) 0))),
      p.1 ≠ (0, 0, 0) ∧ p.2 ≠ (0, 0, 0) := by
  intro p hp
  rcases List.mem_map.1 hp with ⟨q, hq, rfl⟩
  have hb : q.1 * w + q.2 < g.length ∧ (q.1 + 1) * w + q.2 < g.length := by
    rcases hok with heven | hw0
    · have := renderPairs_bounds heven hq
      omega
    · rw [renderPairs_nil w h (Or.inl hw0)] at hq
      cases hq
  have h1 := hg _ (getD_mem_of_lt hb.1)
  have h2 := hg _ (getD_mem_of_lt hb.2)
  exact ⟨mapColor_ne_black h1.1 h1.2, mapColor_ne_black h2.1 h2.2⟩

theorem render_equiv (w h : Nat) (g : List Int) (hlen : g.length = w * h)
    (hok : h % 2 = 0 ∨ w = 0) (hg : ∀ v ∈ g, 0 ≤ v ∧ v ≤ 35) :
    ∃ cps, renderCore w h g = some (Tok.home :: emitCells cps (0, 0, 0) (0, 0, 0)) ∧
      renderAllCore w h g = some (Tok.home :: emitAll cps) ∧
      ∀ df db, decodeToks (emitCells cps (0, 0, 0) (0, 0, 0)) df db = cps ∧
        decodeToks (emitAll cps) df db = cps := by
  refine ⟨(renderPairs w h).map (fun p =>
      (mapColor (g.getD (p.1 * w + p.2) 0), mapColor (g.getD ((p.1 + 1) * w + p.2) 0))),
    ?_, ?_, ?_⟩
  · unfold renderCore
    rw [renderCore_spec w h g hlen hok]
  · unfold renderAllCore
    rw [renderCore_spec w h g hlen hok]
  · intro df db
    constructor
    · exact decodeToks_emitCells _ (0, 0, 0) (0, 0, 0) df db
        (Or.inr (fun p hp => (renderCps_nonblack hlen hok hg p hp).1))
        (Or.inr (fun p hp => (renderCps_nonblack hlen hok hg p hp).2))
    · exact decodeToks_emitAll _ df db

theorem renderPairs_head (w h : Nat) (hw : 1 ≤ w) (hh : 1 ≤ h) :
    ∃ rest, renderPairs w h = (0, 0) :: rest := by
  obtain ⟨m, rfl⟩ : ∃ m, w = m + 1 := ⟨w - 1, by omega⟩
  obtain ⟨k, rfl⟩ : ∃ k, h = k + 1 := ⟨h - 1, by omega⟩
  refine ⟨?_, ?_⟩
  · exact ((List.range m).map (fun x => (0, x + 1))) ++
      (((List.range' 1 k).filter (fun y => y % 2 = 0)).flatMap
        (fun y => (List.range (m + 1)).map (fun x => (y, x))))
  · rw [renderPairs, List.range_eq_range', List.range'_succ]
    simp [List.filter_cons, List.range_succ_eq_map, List.map_map, Function.comp,
      List.range_eq_range']

theorem renderCore_head (w h : Nat) (g : List Int) (hw : 1 ≤ w) (hh2 : 2 ≤ h)
    (heven : h % 2 = 0) (hlen : g.length = w * h) (hg : ∀ v ∈ g, 0 ≤ v ∧ v ≤ 35) :
    mapColor (g.getD 0 0) ≠ (0, 0, 0) ∧ mapColor (g.getD w 0) ≠ (0, 0, 0) ∧
    ∃ rest, renderCore w h g = some (Tok.home :: Tok.setFg (mapColor (g.getD 0 0)) ::
      Tok.setBg (mapColor (g.getD w 0)) :: Tok.glyph :: rest) := by
  have h0 : (0 : Nat) < g.length := by
    have : 1 * 2 ≤ w * h := Nat.mul_le_mul hw hh2
    omega
  have hwlt : w < g.length := by
    have : w * 2 ≤ w * h := Nat.mul_le_mul_left w hh2
    omega
  have hfg := hg _ (getD_mem_of_lt h0)
  have hbg := hg _ (getD_mem_of_lt hwlt)
  have hne1 : mapColor (g.getD 0 0) ≠ (0, 0, 0) := mapColor_ne_black hfg.1 hfg.2
  have hne2 : mapColor (g.getD w 0) ≠ (0, 0, 0) := mapColor_ne_black hbg.1 hbg.2
  refine ⟨hne1, hne2, ?_⟩
  rcases renderPairs_head w h hw (by omega) with ⟨ps, hps⟩
  have hcc := renderCore_spec w h g hlen (Or.inl heven)
  rw [hps] at hcc
  unfold renderCore
  rw [hps, hcc]
  simp only [List.map_cons]
  refine ⟨emitCells (ps.map (fun p =>
    (mapColor (g.getD (p.1 * w + p.2) 0), mapColor (g.getD ((p.1 + 1) * w + p.2) 0))))
    (mapColor (g.getD (0 * w + 0) 0)) (mapColor (g.getD ((0 + 1) * w + 0) 0)), ?_⟩
  simp only [emitCells]
  rw [if_pos (by simpa using hne1), if_pos (by simpa using hne2)]
  simp

theorem mem_getD_index {l : List Int} {v : Int} (hv : v ∈ l) :
    ∃ i, i < l.length ∧ l.getD i 0 = v := by
  rcases List.mem_iff_getElem.1 hv with ⟨i, hi, hg⟩
  refine ⟨i, hi, ?_⟩
  rw [List.getD_eq_getElem?_getD, List.getElem?_eq_getElem hi, hg]
  rfl

theorem initGo_range (fl fl2 : Flame) (h : initGo fl = some fl2) :
    ∀ v ∈ fl2.grid, 0 ≤ v ∧ v ≤ 35 := by
  unfold initGo at h
  rcases hsb : setBottom fl.width fl.height (List.range fl.width)
      (List.replicate (fl.width * fl.height) (0 : Int)) with _ | g
  · rw [hsb] at h; cases h
  · rw [hsb] at h
    injection h with h2
    subst h2
    intro v hv
    have hmem : ∀ (js : List Nat) (g0 g1 : List Int), setBottom fl.width fl.height js g0 = some g1 →
        ∀ u ∈ g1, u ∈ g0 ∨ u = 35 := by
      intro js
      induction js with
      | nil =>
        intro g0 g1 hj u hu
        injection hj with hj2
        subst hj2
        exact Or.inl hu
      | cons j rest ih =>
        intro g0 g1 hj u hu
        unfold setBottom at hj
        split at hj
        · rcases ih _ _ hj u hu with hin | h35
          · rcases List.mem_or_eq_of_mem_set hin with hin2 | rfl
            · exact Or.inl hin2
            · exact Or.inr rfl
          · exact Or.inr h35
        · cases hj
    rcases hmem _ _ _ hsb v hv with hin | rfl
    · have := List.eq_of_mem_replicate hin
      subst this
      exact ⟨le_refl 0, by omega⟩
    · exact ⟨by omega, le_refl 35⟩

theorem initGo_w0 (fl : Flame) (hw : fl.width = 0) : initGo fl = some { fl with grid := [] } := by
  unfold initGo
  rw [hw, Nat.zero_mul]
  rfl

theorem spreadGo_frame (fl fl2 : Flame) (h : spreadGo fl = some fl2) :
    fl2.width = fl.width ∧ fl2.height = fl.height ∧ fl2.buffer = fl.buffer ∧
    fl2.renders = fl.renders ∧ fl2.rnd = fl.rnd := by
  unfold spreadGo at h
  split at h
  · cases h
  · injection h with h2
    subst h2
    exact ⟨rfl, rfl, rfl, rfl, rfl⟩

theorem initGo_frame (fl fl2 : Flame) (h : initGo fl = some fl2) :
    fl2.width = fl.width ∧ fl2.height = fl.height ∧ fl2.buffer = fl.buffer ∧
    fl2.renders = fl.renders ∧ fl2.rnd = fl.rnd ∧ fl2.pos = fl.pos := by
  unfold initGo at h
  split at h
  · cases h
  · injection h with h2
    subst h2
    exact ⟨rfl, rfl, rfl, rfl, rfl, rfl⟩

/-- C2: `Propagate()` performs exactly the specified step for each source
cell at `(y, x)`, rows visited from the bottom non-excluded row upward,
columns left to right: draw `j` uniform in `[0,6)`, destination flat
index `(y-1)*width + x + (j-2)`; skip entirely when that index is below
`(y-1)*width` or above `y*width + width`; otherwise clamp it to
`width*height - 1` and write the source value minus an independent draw
in `[-1,5)`, clamped into `[0,35]`.  Stated as refinement against the
specification-worded pass, for states whose grid matches its dimensions
and holds values in `[0,35]` (every state reachable from `Init` does). -/
theorem c2_propagate (fl : Flame) (hlen : fl.grid.length = fl.width * fl.height)
    (hg : ∀ v ∈ fl.grid, 0 ≤ v ∧ v ≤ 35) :
    spreadGo fl = some (spreadSpecFlame fl) :=
  spreadGo_eq_spec fl hlen hg

/-- Witness for C2 at the concrete state `flEx`. -/
theorem c2_witness :
    (flEx.grid.length = flEx.width * flEx.height) ∧ (∀ v ∈ flEx.grid, 0 ≤ v ∧ v ≤ 35) ∧
    spreadGo flEx = some (spreadSpecFlame flEx) :=
  ⟨by decide, by decide, c2_propagate flEx (by decide) (by decide)⟩

/-- C3 (amended): for every grid that matches its dimensions and whose
cells lie in `[0,35]`, any number of successive `Propagate()` calls
succeeds and every cell value after each call lies in `[0,35]`.  (The
original claim quantified over all grids; see `c3_counterexample`.) -/
theorem c3_invariant (fl : Flame) (hlen : fl.grid.length = fl.width * fl.height)
    (hg : ∀ v ∈ fl.grid, 0 ≤ v ∧ v ≤ 35) (n : Nat) :
    ∃ fl2, iterateSpread n fl = some fl2 ∧ ∀ v ∈ fl2.grid, 0 ≤ v ∧ v ≤ 35 := by
  induction n generalizing fl with
  | zero => exact ⟨fl, rfl, hg⟩
  | succ n ih =>
    rcases spreadGo_preserves fl hlen hg with ⟨fl1, hs, _, _, hlen1, hg1⟩
    rcases ih fl1 hlen1 hg1 with ⟨fl2, hit, hg2⟩
    refine ⟨fl2, ?_, hg2⟩
    show (match spreadGo fl with | none => none | some f => iterateSpread n f) = some fl2
    rw [hs]
    exact hit

/-- Counterexample to C3 as stated: a 1-by-1 grid holding `36` is left
untouched by `Propagate()` (no source row exists), so its cell is still
outside `[0,35]` after the call. -/
theorem c3_counterexample :
    (iterateSpread 1 { mkFlame 1 1 rEx with grid := [36] }).map Flame.grid
      = some [(36 : Int)] ∧ (36 : Int) > 35 := by
  decide

/-- Witness for C3 at the concrete state `flEx` and two calls. -/
theorem c3_witness :
    (flEx.grid.length = flEx.width * flEx.height) ∧ (∀ v ∈ flEx.grid, 0 ≤ v ∧ v ≤ 35) ∧
    ∃ fl2, iterateSpread 2 flEx = some fl2 ∧ ∀ v ∈ fl2.grid, 0 ≤ v ∧ v ≤ 35 :=
  ⟨by decide, by decide, c3_invariant flEx (by decide) (by decide) 2⟩

/-- C6: the intensity-to-color lookup is total: every intensity in
`[0,35]` yields the fixed entry of the 36-entry palette, every value
outside `[0,35]` yields black `(0,0,0)`, and it never panics (`mapColor`
is a total function). -/
theorem c6_palette (v : Int) :
    (0 ≤ v → v ≤ 35 → mapColor v = palette.getD v.toNat (0, 0, 0) ∧ mapColor v ∈ palette) ∧
    (v < 0 ∨ 35 < v → mapColor v = (0, 0, 0)) ∧
    palette.length = 36 :=
  ⟨fun h0 h35 => ⟨mapColor_in_range h0 h35, mapColor_mem_palette h0 h35⟩,
   fun h => mapColor_out_of_range h, palette_len⟩

/-- Witness for C6 at intensities `35` and `99`. -/
theorem c6_witness :
    ((0 : Int) ≤ 35 ∧ (35 : Int) ≤ 35 ∧ ((99 : Int) < 0 ∨ (35 : Int) < 99)) ∧
    mapColor 35 ∈ palette ∧ mapColor 99 = (0, 0, 0) :=
  ⟨⟨by decide, by decide, Or.inr (by decide)⟩,
   ((c6_palette 35).1 (by decide) (by decide)).2,
   (c6_palette 99).2.1 (Or.inr (by decide))⟩

/-- C9: `Propagate()` is deterministic given the random source: two
states with equal width, height, grid and generator state produce equal
grids, equal cursors and equal generator streams. -/
theorem c9_deterministic (fl1 fl2 : Flame) (hw : fl1.width = fl2.width)
    (hh : fl1.height = fl2.height) (hg : fl1.grid = fl2.grid)
    (hr : fl1.rnd = fl2.rnd) (hp : fl1.pos = fl2.pos) :
    (spreadGo fl1).map (fun f => (f.grid, f.pos))
      = (spreadGo fl2).map (fun f => (f.grid, f.pos)) ∧
    (spreadGo fl1).map Flame.rnd = (spreadGo fl2).map Flame.rnd := by
  unfold spreadGo
  rw [hw, hh, hg, hr, hp]
  rcases hE : runCells fl2.width fl2.height fl2.rnd (cellSteps fl2.width fl2.height)
      (fl2.grid, fl2.pos) with _ | s <;> simp [hE, hr]

/-- Witness for C9 at `flA` and `flB`, which differ in buffer and
render counter but agree on the simulation state. -/
theorem c9_witness :
    (flA.width = flB.width ∧ flA.height = flB.height ∧ flA.grid = flB.grid ∧
      flA.rnd = flB.rnd ∧ flA.pos = flB.pos) ∧
    ((spreadGo flA).map (fun f => (f.grid, f.pos))
      = (spreadGo flB).map (fun f => (f.grid, f.pos)) ∧
    (spreadGo flA).map Flame.rnd = (spreadGo flB).map Flame.rnd) :=
  ⟨⟨rfl, rfl, rfl, rfl, rfl⟩, c9_deterministic flA flB rfl rfl rfl rfl rfl⟩

/-- C10: `Propagate()` mutates only the grid and the generator cursor:
width, height, buffer contents, render counter and the generator stream
itself are unchanged by the call. -/
theorem c10_frame (fl fl2 : Flame) (h : spreadGo fl = some fl2) :
    fl2.width = fl.width ∧ fl2.height = fl.height ∧ fl2.buffer = fl.buffer ∧
    fl2.renders = fl.renders ∧ fl2.rnd = fl.rnd :=
  spreadGo_frame fl fl2 h

/-- Witness for C10 at the concrete state `flEx`. -/
theorem c10_witness :
    spreadGo flEx = some flExOut ∧
    (flExOut.width = flEx.width ∧ flExOut.height = flEx.height ∧
      flExOut.buffer = flEx.buffer ∧ flExOut.renders = flEx.renders ∧
      flExOut.rnd = flEx.rnd) :=
  ⟨by rfl, c10_frame flEx flExOut (by rfl)⟩

/-- Helper shared by C5 and C1: the full characterization of
`SetDimensions`/`Init` for positive height. -/
theorem setDims_spec (fl : Flame) (w h : Nat) (hh : 1 ≤ h) :
    ∃ fl2, setDimensionsGo fl w h = some fl2 ∧ fl2.width = w ∧ fl2.height = h ∧
      fl2.grid.length = w * h ∧
      (∀ j, j < w → fl2.grid.getD ((h - 1) * w + j) 0 = 35) ∧
      (∀ i, i < (h - 1) * w → fl2.grid.getD i 0 = 0) := by
  rcases initGo_spec { fl with width := w, height := h } hh with
    ⟨fl2, hsome, hw2, hh2, _, _, hlen2, hget2⟩
  have hget2b : ∀ i, i < w * h → fl2.grid.getD i 0 = if (h - 1) * w ≤ i then 35 else 0 :=
    fun i hi => hget2 i hi
  have hlen2b : fl2.grid.length = w * h := hlen2
  have hrow : (h - 1) * w + w = h * w := by
    have h3 : h - 1 + 1 = h := by omega
    calc (h - 1) * w + w = (h - 1 + 1) * w := by ring
      _ = h * w := by rw [h3]
  have hcomm : w * h = h * w := Nat.mul_comm _ _
  refine ⟨fl2, hsome, hw2, hh2, hlen2b, ?_, ?_⟩
  · intro j hj
    rw [hget2b ((h - 1) * w + j) (by omega)]
    rw [if_pos (by omega)]
  · intro i hi
    have hle : (h - 1) * w ≤ h * w := Nat.mul_le_mul_right w (by omega)
    rw [hget2b i (by omega)]
    rw [if_neg (by omega)]

/-- C5: after `Initialize(w, h)` with `h > 0`, every cell in the last row
equals `35` and all other cells equal `0`, regardless of the contents or
size of any prior grid (the quantification over an arbitrary prior state
`fl` and the fully determined cell values express that no residue from
previous state survives reinitialization). -/
theorem c5_initialize (fl : Flame) (w h : Nat) (hh : 1 ≤ h) :
    ∃ fl2, setDimensionsGo fl w h = some fl2 ∧ fl2.width = w ∧ fl2.height = h ∧
      fl2.grid.length = w * h ∧
      (∀ j, j < w → fl2.grid.getD ((h - 1) * w + j) 0 = 35) ∧
      (∀ i, i < (h - 1) * w → fl2.grid.getD i 0 = 0) :=
  setDims_spec fl w h hh

/-- Witness for C5: reinitializing a 1-by-1 state holding residue
`[-77, 99]` to 2-by-2. -/
theorem c5_witness :
    (1 : Nat) ≤ 2 ∧
    ∃ fl2, setDimensionsGo { mkFlame 1 1 rEx with grid := [-77, 99] } 2 2 = some fl2 ∧
      fl2.width = 2 ∧ fl2.height = 2 ∧ fl2.grid.length = 2 * 2 ∧
      (∀ j, j < 2 → fl2.grid.getD ((2 - 1) * 2 + j) 0 = 35) ∧
      (∀ i, i < (2 - 1) * 2 → fl2.grid.getD i 0 = 0) :=
  ⟨by decide, c5_initialize { mkFlame 1 1 rEx with grid := [-77, 99] } 2 2 (by decide)⟩

/-- C1 (amended): after `Initialize(w, h)` with `h > 0` every cell of
the bottom row equals `35`; however `Propagate()` writes are not confined
to cells strictly above the bottom row: a jittered destination from a
bottom-row source may land back inside the bottom row (the skip bound is
`y*width + width`, one full row below the destination row, and overflow
past the last cell is clamped onto the bottom-right cell), so bottom-row
cells can be decremented below `35`. -/
theorem c1_amended (fl : Flame) (w h : Nat) (hh : 1 ≤ h) :
    (∀ fl2 ∈ setDimensionsGo fl w h, ∀ j, j < w → fl2.grid.getD ((h - 1) * w + j) 0 = 35) ∧
    ∃ fl0 fl1 fl2 i, initGo fl0 = some fl1 ∧ spreadGo fl1 = some fl2 ∧
      (fl1.height - 1) * fl1.width ≤ i ∧ i < fl1.width * fl1.height ∧
      fl2.grid.getD i 0 < 35 := by
  constructor
  · intro fl2 hm j hj
    rcases setDims_spec fl w h hh with ⟨fl2b, hsome, _, _, _, hbot, _⟩
    rw [Option.mem_def, hsome] at hm
    injection hm with hm2
    subst hm2
    exact hbot j hj
  · refine ⟨mkFlame 4 2 rEx, flEx, flExOut, 6, by rfl, by rfl, by decide, by decide, by decide⟩

/-- Counterexample to C1 as stated: on a 4-by-2 grid produced by
`Init`, cell `6` (bottom row, column 2) holds `35` after `Init` but `31`
after one `Propagate()` with jitter draw `5` at source `(1, 3)`: the
destination `0*4 + 3 + 3 = 6` passes the skip test (bound `1*4 + 4 = 8`)
and lands in the bottom row. -/
theorem c1_counterexample :
    (initGo (mkFlame 4 2 rEx)).map (fun f => f.grid.getD 6 0) = some 35 ∧
    ((initGo (mkFlame 4 2 rEx)).bind spreadGo).map (fun f => f.grid.getD 6 0) = some 31 ∧
    (2 - 1) * 4 ≤ 6 ∧ 6 < 4 * 2 ∧ (31 : Int) < 35 := by
  decide

/-- Witness for C1 (amended) at a fresh 3-by-3 state. -/
theorem c1_witness :
    (1 : Nat) ≤ 3 ∧
    ((∀ fl2 ∈ setDimensionsGo (mkFlame 3 3 rEx) 3 3, ∀ j, j < 3 →
        fl2.grid.getD ((3 - 1) * 3 + j) 0 = 35) ∧
      ∃ fl0 fl1 fl2 i, initGo fl0 = some fl1 ∧ spreadGo fl1 = some fl2 ∧
        (fl1.height - 1) * fl1.width ≤ i ∧ i < fl1.width * fl1.height ∧
        fl2.grid.getD i 0 < 35) :=
  ⟨by decide, c1_amended (mkFlame 3 3 rEx) 3 3 (by decide)⟩

/-- C7 (amended): for grids whose cells lie in `[0,35]` (as the clamp
invariant guarantees) and whose dimensions render without a panic, the
color-change suppression cache never changes the rendered colors: a
terminal decoder starting from any initial colors assigns every glyph the
same foreground and background under the cached renderer as under one
that emits both color escapes unconditionally.  (For grids with
out-of-range cells the guarantee fails; see `c7_counterexample`.) -/
theorem c7_cache_equiv (w h : Nat) (g : List Int) (hlen : g.length = w * h)
    (hok : h % 2 = 0 ∨ w = 0) (hg : ∀ v ∈ g, 0 ≤ v ∧ v ≤ 35) :
    ∃ toksC toksA, renderCore w h g = some toksC ∧ renderAllCore w h g = some toksA ∧
      ∀ df db, decodeToks toksC df db = decodeToks toksA df db := by
  rcases render_equiv w h g hlen hok hg with ⟨cps, hc, ha, hd⟩
  refine ⟨_, _, hc, ha, ?_⟩
  intro df db
  show decodeToks (emitCells cps (0, 0, 0) (0, 0, 0)) df db = decodeToks (emitAll cps) df db
  rw [(hd df db).1, (hd df db).2]

/-- Counterexample to C7 as stated (over every grid): on a 1-by-2 grid
of `-1` values both cell colors are black, equal to the initial cache, so
the cached renderer emits no color escape at all and the decoded colors
of the one glyph depend on the prior terminal state, unlike the
unconditional renderer which pins them to black. -/
theorem c7_counterexample :
    ([(-1 : Int), -1].length = 1 * 2) ∧
    (renderCore 1 2 [(-1 : Int), -1]).map (fun t => decodeToks t (1, 1, 1) (1, 1, 1)) ≠
      (renderAllCore 1 2 [(-1 : Int), -1]).map (fun t => decodeToks t (1, 1, 1) (1, 1, 1)) := by
  decide

/-- Witness for C7 (amended) on a concrete 2-by-2 in-range grid. -/
theorem c7_witness :
    (([(0 : Int), 1, 35, 35] : List Int).length = 2 * 2 ∧ ((2 : Nat) % 2 = 0 ∨ (2 : Nat) = 0) ∧
      (∀ v ∈ ([(0 : Int), 1, 35, 35] : List Int), 0 ≤ v ∧ v ≤ 35)) ∧
    ∃ toksC toksA, renderCore 2 2 [(0 : Int), 1, 35, 35] = some toksC ∧
      renderAllCore 2 2 [(0 : Int), 1, 35, 35] = some toksA ∧
      ∀ df db, decodeToks toksC df db = decodeToks toksA df db :=
  ⟨⟨by decide, Or.inl (by decide), by decide⟩,
   c7_cache_equiv 2 2 [(0 : Int), 1, 35, 35] (by decide) (Or.inl (by decide)) (by decide)⟩

/-- C8 (amended): at the start of a `Render` call the cached colors
`(0,0,0)` differ from the first cell's colors whenever the grid cells lie
in `[0,35]` (no palette entry is black), so for widths at least 1 and
positive even heights both a set-foreground and a set-background escape
are emitted before the first glyph.  (For odd heights the render panics
instead; see `c8_counterexample`.) -/
theorem c8_first_cell (fl : Flame) (hw : 1 ≤ fl.width) (hh2 : 2 ≤ fl.height)
    (heven : fl.height % 2 = 0) (hlen : fl.grid.length = fl.width * fl.height)
    (hg : ∀ v ∈ fl.grid, 0 ≤ v ∧ v ≤ 35) :
    mapColor (fl.grid.getD 0 0) ≠ (0, 0, 0) ∧
    mapColor (fl.grid.getD fl.width 0) ≠ (0, 0, 0) ∧
    ∃ rest, renderCore fl.width fl.height fl.grid = some (Tok.home ::
      Tok.setFg (mapColor (fl.grid.getD 0 0)) ::
      Tok.setBg (mapColor (fl.grid.getD fl.width 0)) :: Tok.glyph :: rest) :=
  renderCore_head fl.width fl.height fl.grid hw hh2 heven hlen hg

/-- Counterexample to C8 as stated: for the 1-by-1 grid `[35]` — width
and height positive, all cells in `[0,35]` — `Render` panics on the
background lookup `grid[(0+1)*1 + 0]` before any frame is produced, so no
escape is ever emitted. -/
theorem c8_counterexample :
    (∀ v ∈ ([(35 : Int)] : List Int), 0 ≤ v ∧ v ≤ 35) ∧
    ([(35 : Int)] : List Int).length = 1 * 1 ∧
    renderCore 1 1 [(35 : Int)] = none := by
  decide

/-- Witness for C8 (amended) at the concrete state `flRender`. -/
theorem c8_witness :
    (1 ≤ flRender.width ∧ 2 ≤ flRender.height ∧ flRender.height % 2 = 0 ∧
      flRender.grid.length = flRender.width * flRender.height ∧
      (∀ v ∈ flRender.grid, 0 ≤ v ∧ v ≤ 35)) ∧
    (mapColor (flRender.grid.getD 0 0) ≠ (0, 0, 0) ∧
      mapColor (flRender.grid.getD flRender.width 0) ≠ (0, 0, 0) ∧
      ∃ rest, renderCore flRender.width flRender.height flRender.grid = some (Tok.home ::
        Tok.setFg (mapColor (flRender.grid.getD 0 0)) ::
        Tok.setBg (mapColor (flRender.grid.getD flRender.width 0)) :: Tok.glyph :: rest)) :=
  ⟨⟨by decide, by decide, by decide, by decide, by decide⟩,
   c8_first_cell flRender (by decide) (by decide) (by decide) (by decide) (by decide)⟩

/-- C4 (amended): `Initialize` never panics when the height is positive
or the width is zero; `Propagate` on the initialized state never panics;
`RenderFrame` never panics when the height is even (as the driver
guarantees by doubling the terminal row count) or the width is zero; and
the degenerate `Initialize(0,0)`, `Propagate()`, `RenderFrame()` sequence
completes and emits exactly the cursor-home sequence.  (Unrestricted
totality is refuted by `c4_counterexample`.) -/
theorem c4_totality (w h : Nat) (r : Nat → Fin 6) (hinit : 1 ≤ h ∨ w = 0) :
    ∃ fl1, initGo (mkFlame w h r) = some fl1 ∧
    ∃ fl2, spreadGo fl1 = some fl2 ∧
      ((h % 2 = 0 ∨ w = 0) → ∃ out fl3, renderGo fl2 = some (out, fl3)) ∧
      ((w = 0 ∨ h = 0) →
        renderGo fl2 = some ("\x1b[0;0H",
          { fl2 with buffer := "", renders := fl2.renders + 1 })) := by
  have h1 : ∃ fl1, initGo (mkFlame w h r) = some fl1 ∧ fl1.width = w ∧ fl1.height = h ∧
      fl1.buffer = "" ∧ fl1.grid.length = w * h ∧ (∀ v ∈ fl1.grid, 0 ≤ v ∧ v ≤ 35) := by
    rcases hinit with hh | hw0
    · rcases initGo_spec (mkFlame w h r) hh with ⟨fl1, hs, hw1, hh1, hb1, _, hlen1, _⟩
      exact ⟨fl1, hs, hw1, hh1, hb1, hlen1, initGo_range _ _ hs⟩
    · subst hw0
      refine ⟨{ mkFlame 0 h r with grid := [] }, initGo_w0 _ rfl, rfl, rfl, rfl, ?_, ?_⟩
      · simp
      · simp
  rcases h1 with ⟨fl1, hs1, hw1, hh1, hb1, hlen1, hg1⟩
  rcases spreadGo_preserves fl1 (by rw [hw1, hh1]; exact hlen1) hg1 with
    ⟨fl2, hs2, hw2, hh2, hlen2, hg2⟩
  have hb2 : fl2.buffer = "" := by rw [(spreadGo_frame fl1 fl2 hs2).2.2.1, hb1]
  have hw2b : fl2.width = w := by rw [hw2, hw1]
  have hh2b : fl2.height = h := by rw [hh2, hh1]
  refine ⟨fl1, hs1, fl2, hs2, ?_, ?_⟩
  · intro hok
    have hok2 : fl2.height % 2 = 0 ∨ fl2.width = 0 := by
      rcases hok with he | h0
      · exact Or.inl (by rw [hh2b]; exact he)
      · exact Or.inr (by rw [hw2b]; exact h0)
    rcases render_equiv fl2.width fl2.height fl2.grid hlen2 hok2 hg2 with ⟨cps, hc, _, _⟩
    refine ⟨fl2.buffer ++ frameBytes (Tok.home :: emitCells cps (0, 0, 0) (0, 0, 0)),
      { fl2 with buffer := "", renders := fl2.renders + 1 }, ?_⟩
    unfold renderGo
    rw [hc]
  · intro hwh0
    have hpn : renderPairs fl2.width fl2.height = [] := by
      rcases hwh0 with h0 | h0
      · exact renderPairs_nil _ _ (Or.inl (by rw [hw2b]; exact h0))
      · exact renderPairs_nil _ _ (Or.inr (by rw [hh2b]; exact h0))
    have hrc : renderCore fl2.width fl2.height fl2.grid = some [Tok.home] := by
      unfold renderCore
      rw [hpn]
      rfl
    unfold renderGo
    rw [hrc, hb2]
    rfl

/-- Counterexample to C4 as stated: `Initialize(1, 0)` panics (it
writes to `grid[(0-1)*1 + 0]`, a negative index), and
`Initialize(1, 1)` followed by `RenderFrame` panics (the background
lookup reads `grid[1]` of a one-cell grid). -/
theorem c4_counterexample :
    initGo (mkFlame 1 0 rEx) = none ∧
    ((initGo (mkFlame 1 1 rEx)).bind (fun f => (renderGo f).map Prod.fst)) = none := by
  exact ⟨rfl, rfl⟩

/-- Witness for C4 (amended) at the degenerate size `(0, 0)`. -/
theorem c4_witness :
    ((1 : Nat) ≤ 0 ∨ (0 : Nat) = 0) ∧
    (∃ fl1, initGo (mkFlame 0 0 rEx) = some fl1 ∧
      ∃ fl2, spreadGo fl1 = some fl2 ∧
        (((0 : Nat) % 2 = 0 ∨ (0 : Nat) = 0) → ∃ out fl3, renderGo fl2 = some (out, fl3)) ∧
        (((0 : Nat) = 0 ∨ (0 : Nat) = 0) →
          renderGo fl2 = some ("\x1b[0;0H",
            { fl2 with buffer := "", renders := fl2.renders + 1 }))) :=
  ⟨Or.inr rfl, c4_totality 0 0 rEx (Or.inr rfl)⟩
